import Mathlib

/-
Verification of the social-account resolution pipeline of the repository
(pressionaapp/deputados_extractor.py and pressionaapp/grok_service.py).

Strings are modelled as `List Char`.  Python `str.lower()` is modelled by the
ASCII case map composed, for the Portuguese accented letters actually used by
the data, with the NFD-decompose-and-drop-marks step of `_normalize_name`
(one table `accentTable`).  Regular expressions of the source are implemented
directly as scanning functions with Python `re.search` leftmost-match
semantics.  External I/O (HTTP fetches, the Selenium driver, Google result
pages) is supplied through explicit environment records; everything the
source computes from those inputs is translated faithfully.
-/

namespace Blindagem

/-- Convert a string literal to the `List Char` representation used here. -/
def chars (s : String) : List Char := s.data

/-- Python whitespace class used by `str.split`, `str.strip` and `\s`. -/
def isSpacePy (c : Char) : Bool :=
  c = ' ' || c = '\t' || c = '\n' || c = '\x0d' || c = '\x0b' || c = '\x0c'

/-- Word characters for the purpose of the regex `\b` boundaries in
`_normalize_name` (ASCII word chars plus the ordinal indicator that occurs
in the title list). -/
def isWordChar (c : Char) : Bool :=
  c.isAlphanum || c = '_' || c = 'ª'

/-- NFD decomposition table for the accented letters of the data repertoire:
each accented character together with the base letter that survives after
dropping the combining marks (category Mn), as `unicodedata` does in
`_normalize_name`.  Uppercase entries already account for the preceding
`str.lower()` call. -/
def accentTable : List (Char × Char) :=
  [('á', 'a'), ('à', 'a'), ('â', 'a'), ('ã', 'a'), ('ä', 'a'),
   ('é', 'e'), ('è', 'e'), ('ê', 'e'), ('ë', 'e'),
   ('í', 'i'), ('ì', 'i'), ('î', 'i'), ('ï', 'i'),
   ('ó', 'o'), ('ò', 'o'), ('ô', 'o'), ('õ', 'o'), ('ö', 'o'),
   ('ú', 'u'), ('ù', 'u'), ('û', 'u'), ('ü', 'u'), ('ç', 'c'),
   ('Á', 'a'), ('À', 'a'), ('Â', 'a'), ('Ã', 'a'), ('Ä', 'a'),
   ('É', 'e'), ('È', 'e'), ('Ê', 'e'), ('Ë', 'e'),
   ('Í', 'i'), ('Ì', 'i'), ('Î', 'i'), ('Ï', 'i'),
   ('Ó', 'o'), ('Ò', 'o'), ('Ô', 'o'), ('Õ', 'o'), ('Ö', 'o'),
   ('Ú', 'u'), ('Ù', 'u'), ('Û', 'u'), ('Ü', 'u'), ('Ç', 'c')]

/-- One character of `name.lower()` followed by NFD-decompose-and-drop-marks. -/
def stripLower (c : Char) : Char :=
  if 'A' ≤ c ∧ c ≤ 'Z' then c.toLower
  else
    match accentTable.find? (fun p => p.1 = c) with
    | some p => p.2
    | none => c

/-- Python `str.lower()` restricted to the ASCII range (URLs and usernames). -/
def toLowerList (s : List Char) : List Char := s.map Char.toLower

/-- Boolean list-prefix test. -/
def isPrefixB : List Char → List Char → Bool
  | [], _ => true
  | _ :: _, [] => false
  | a :: as, b :: bs => a = b && isPrefixB as bs

/-- Boolean substring test, Python `needle in hay`. -/
def substrB (n : List Char) : List Char → Bool
  | [] => n.isEmpty
  | c :: t => isPrefixB n (c :: t) || substrB n t

/-- Boolean suffix test (regex `pat$`). -/
def endsWithB (n h : List Char) : Bool := isPrefixB n.reverse h.reverse

/-- Length of the run of digits starting at the head of the list. -/
def digitRunFrom : List Char → Nat
  | [] => 0
  | c :: t => if c.isDigit then digitRunFrom t + 1 else 0

/-- Whether the string contains a run of 4 or more digits (regex `\d{4,}`). -/
def hasDigitRun4 : List Char → Bool
  | [] => false
  | c :: t => decide (4 ≤ digitRunFrom (c :: t)) || hasDigitRun4 t

/-- Accumulator worker for `splitWS`. -/
def splitWSAux : List Char → List Char → List (List Char)
  | acc, [] => if acc.isEmpty then [] else [acc.reverse]
  | acc, c :: t =>
    if isSpacePy c then
      if acc.isEmpty then splitWSAux [] t else acc.reverse :: splitWSAux [] t
    else splitWSAux (c :: acc) t

/-- Python `str.split()`: split on whitespace runs, dropping empty pieces. -/
def splitWS (s : List Char) : List (List Char) := splitWSAux [] s

/-- Python `str.strip()`: drop whitespace at both ends. -/
def pyStrip (s : List Char) : List Char :=
  ((s.dropWhile isSpacePy).reverse.dropWhile isSpacePy).reverse

/-- The honorific/role alternatives of the `re.sub` in `_normalize_name`,
in the order the regex lists them:
`dr|dra|prof|profª|professor|professora|sr|sra|deputado|deputada`. -/
def titleList : List (List Char) :=
  [chars "dr", chars "dra", chars "prof", chars "profª",
   chars "professor", chars "professora", chars "sr", chars "sra",
   chars "deputado", chars "deputada"]

/-- The `\b` after the matched alternative: the next character, if any, must
not be a word character. -/
def boundaryAfter (t s : List Char) : Bool :=
  match s.drop t.length with
  | [] => true
  | c :: _ => !(isWordChar c)

/-- First alternative of the title regex that matches at this position with a
word boundary after it (Python alternation tries the branches in order and
the trailing `\b` rejects a branch whose next character is a word char). -/
def titleMatchAt (s : List Char) : Option (List Char) :=
  titleList.find? (fun t => isPrefixB t s && boundaryAfter t s)

/-- Consume `\.?\s*` after a matched title; returns the resume point and
whether the character just before it is a word character. -/
def afterTitle (t s : List Char) : List Char × Bool :=
  match s.drop t.length with
  | [] => ([], true)
  | c :: r1 =>
    if c = '.' then (r1.dropWhile isSpacePy, false)
    else if isSpacePy c then ((c :: r1).dropWhile isSpacePy, false)
    else (c :: r1, true)

/-- Fuel-indexed worker for the title-removing `re.sub`: scan left to right,
replacing each `\b(title)\b\.?\s*` match by nothing and resuming after it,
tracking whether the previous character is a word character (for `\b`).
Fuel at least the length of the input is always enough. -/
def subTitlesF : Nat → Bool → List Char → List Char
  | 0, _, s => s
  | _ + 1, _, [] => []
  | fuel + 1, prevW, c :: cs =>
    match (if prevW then none else titleMatchAt (c :: cs)) with
    | some t =>
      let rp := afterTitle t (c :: cs)
      subTitlesF fuel rp.2 rp.1
    | none => c :: subTitlesF fuel (isWordChar c) cs

/-- The `re.sub(r'\b(dr|...)\b\.?\s*', '', ...)` of `_normalize_name`. -/
def subTitles (prevW : Bool) (s : List Char) : List Char :=
  subTitlesF s.length prevW s

/-- `TwitterSearcher._normalize_name`: lower-case, strip combining marks,
remove the honorific/role words at word boundaries, strip outer blanks. -/
def normalize_name (name : List Char) : List Char :=
  pyStrip (subTitles false (name.map stripLower))

/-- The dictionary returned by `TwitterSearcher._extract_name_parts`. -/
structure NameParts where
  full_parts : List (List Char)
  parl_parts : List (List Char)
  first_name : List Char
  last_name : List Char
  parl_first : List Char
  parl_last : List Char
  all_significant : List (List Char)
  deriving DecidableEq, Repr

/-- `TwitterSearcher._extract_name_parts`: normalized tokens of the civil and
parliamentary names, keeping only tokens longer than 2 characters; the
`all_significant` field models Python `list(set(...))` as deduplication (the
scorer only ever counts distinct members, so iteration order is immaterial). -/
def extract_name_parts (nome nome_parlamentar : List Char) : NameParts :=
  let fp := (splitWS (normalize_name nome)).filter (fun p => 2 < p.length)
  let pp := (splitWS (normalize_name nome_parlamentar)).filter (fun p => 2 < p.length)
  { full_parts := fp
    parl_parts := pp
    first_name := fp.headD []
    last_name := if 1 < fp.length then fp.getLastD [] else []
    parl_first := pp.headD []
    parl_last := if 1 < pp.length then pp.getLastD [] else []
    all_significant := (fp ++ pp).dedup }

/-- Capture `([^/\s?]+)` at this position: the maximal run of characters that
are not `/`, whitespace or `?`; the match fails when the run is empty. -/
def captureUser (s : List Char) : Option (List Char) :=
  let u := s.takeWhile (fun c => !(c = '/' || c = '?' || isSpacePy c))
  if u.isEmpty then none else some u

/-- First of the given domain markers that is a prefix at this position,
returning the remainder after it. -/
def domMatch : List (List Char) → List Char → Option (List Char)
  | [], _ => none
  | d :: ds, s => if isPrefixB d s then some (s.drop d.length) else domMatch ds s

/-- `re.search` of `dom₁|dom₂` followed by `([^/\s?]+)`: scan positions left
to right; at each, try the domain alternatives in order and then the capture;
on failure move one position right. -/
def findPlatformUser (doms : List (List Char)) : List Char → Option (List Char)
  | [] => none
  | c :: t =>
    match domMatch doms (c :: t) with
    | some rest =>
      match captureUser rest with
      | some u => some u
      | none => findPlatformUser doms t
    | none => findPlatformUser doms t

/-- Username extraction of `_calculate_url_confidence`: platform-specific
pattern applied to the lower-cased URL; the empty list models the `""` used
by the source when there is no match. -/
def extract_username (url platform : List Char) : List Char :=
  let ul := toLowerList url
  let m :=
    if platform = chars "instagram" then
      findPlatformUser [chars "instagram.com/"] ul
    else if platform = chars "twitter" then
      findPlatformUser [chars "twitter.com/", chars "x.com/"] ul
    else if platform = chars "facebook" then
      findPlatformUser [chars "facebook.com/"] ul
    else none
  match m with
  | some u => toLowerList u
  | none => []

/-- The official keywords of `_calculate_url_confidence`, in source order. -/
def officialKeywords : List (List Char) :=
  [chars "deputado", chars "deputada", chars "oficial", chars "brazil",
   chars "brasil", chars "congresso", chars "camara"]

/-- The five suspicious patterns of `_calculate_url_confidence`. -/
inductive SPat where
  | digits
  | fanWord
  | fakeWord
  | parodyWord
  | genericSuffix
  deriving DecidableEq, Repr

/-- The suspicious-pattern list in source order. -/
def spatList : List SPat :=
  [SPat.digits, SPat.fanWord, SPat.fakeWord, SPat.parodyWord, SPat.genericSuffix]

/-- `re.search` of each suspicious pattern against the username:
`\d{4,}`, `fan|fans`, `fake|falso`, `parody|parodia`, `_br$|brazil$`. -/
def suspiciousMatch (p : SPat) (u : List Char) : Bool :=
  match p with
  | SPat.digits => hasDigitRun4 u
  | SPat.fanWord => substrB (chars "fan") u
  | SPat.fakeWord => substrB (chars "fake") u || substrB (chars "falso") u
  | SPat.parodyWord => substrB (chars "parody") u || substrB (chars "parodia") u
  | SPat.genericSuffix => endsWithB (chars "_br") u || endsWithB (chars "brazil") u

/-- The entries of the `details` list built by `_calculate_url_confidence`,
one constructor per message template of the source (the source stores the
corresponding formatted strings). -/
inductive Reason where
  | namePart (t : List Char)
  | bothNames (first last : List Char)
  | parlFirst (t : List Char)
  | parlLast (t : List Char)
  | keyword (k : List Char)
  | suspicious (p : SPat)
  deriving DecidableEq, Repr

/-- The `score_details` dictionary returned by `_calculate_url_confidence`. -/
structure ScoreInfo where
  score : Int
  username : List Char
  details : List Reason
  deriving DecidableEq, Repr

/-- The numeric-score and details part of `_calculate_url_confidence`:
+3 per distinct significant token found in the username, +5 when both civil
first and last tokens are present, +2 for each parliamentary first/last
token present, +2 per official keyword found in the username or the URL,
−3 per suspicious pattern matching the username. -/
def scoreInfoOf (url : List Char) (np : NameParts) (platform : List Char) : ScoreInfo :=
  let ul := toLowerList url
  let username := extract_username url platform
  let tokenHits := np.all_significant.filter (fun t => substrB t username)
  let bothB := !np.first_name.isEmpty && !np.last_name.isEmpty
      && substrB np.first_name username && substrB np.last_name username
  let pfB := !np.parl_first.isEmpty && substrB np.parl_first username
  let plB := !np.parl_last.isEmpty && substrB np.parl_last username
  let kwHits := officialKeywords.filter (fun k => substrB k username || substrB k ul)
  let spHits := spatList.filter (fun p => suspiciousMatch p username)
  { score := 3 * (tokenHits.length : Int) + (if bothB then 5 else 0)
      + (if pfB then 2 else 0) + (if plB then 2 else 0)
      + 2 * (kwHits.length : Int) - 3 * (spHits.length : Int)
    username := username
    details := tokenHits.map Reason.namePart
      ++ (if bothB then [Reason.bothNames np.first_name np.last_name] else [])
      ++ (if pfB then [Reason.parlFirst np.parl_first] else [])
      ++ (if plB then [Reason.parlLast np.parl_last] else [])
      ++ kwHits.map Reason.keyword
      ++ spHits.map Reason.suspicious }

/-- The three confidence tiers. -/
inductive ConfLevel where
  | high
  | medium
  | low
  deriving DecidableEq, Repr

/-- The tier/review mapping at the end of `_calculate_url_confidence`. -/
def tierOf (score : Int) : ConfLevel × Bool :=
  if 8 ≤ score then (ConfLevel.high, false)
  else if 4 ≤ score then (ConfLevel.medium, true)
  else (ConfLevel.low, true)

/-- Modelled from the spec: the tier-mapping sentence of §4.2 step 8
(score ≥ 8 → high, not reviewed; 4 ≤ score < 8 → medium, reviewed;
score < 4 → low, reviewed), for comparison with the source mapping. -/
def specTier (score : Int) : ConfLevel × Bool :=
  if 8 ≤ score then (ConfLevel.high, false)
  else if 4 ≤ score then (ConfLevel.medium, true)
  else (ConfLevel.low, true)

/-- `TwitterSearcher._calculate_url_confidence`. -/
def calc_url_confidence (url : List Char) (np : NameParts) (platform : List Char) :
    ConfLevel × Bool × ScoreInfo :=
  let info := scoreInfoOf url np platform
  let tn := tierOf info.score
  (tn.1, tn.2, info)

/-- `TwitterSearcher._should_accept_url`: reject exactly the low tier. -/
def should_accept_url (url : List Char) (np : NameParts) (platform : List Char) :
    Bool × ConfLevel × Bool × ScoreInfo :=
  let r := calc_url_confidence url np platform
  if r.1 = ConfLevel.low then (false, r) else (true, r)

/-- Python `s.split(ch)` (keeping empty pieces), accumulator worker. -/
def splitOnCharAux (ch : Char) : List Char → List Char → List (List Char)
  | acc, [] => [acc.reverse]
  | acc, c :: t =>
    if c = ch then acc.reverse :: splitOnCharAux ch [] t
    else splitOnCharAux ch (c :: acc) t

/-- Python `s.split(ch)`. -/
def splitOnChar (ch : Char) (s : List Char) : List (List Char) :=
  splitOnCharAux ch [] s

/-- `TwitterSearcher._clean_twitter_url`: drop the query string and fragment,
keep only the first four `/`-separated pieces when a `/status/`, `/with/` or
`/photo/` sub-path is present, and drop trailing slashes of non-root URLs. -/
def clean_twitter_url (url : List Char) : List Char :=
  let c0 := (url.takeWhile (fun c => c ≠ '?')).takeWhile (fun c => c ≠ '#')
  let c1 :=
    if substrB (chars "/status/") c0 || substrB (chars "/with/") c0
        || substrB (chars "/photo/") c0 then
      let parts := splitOnChar '/' c0
      if 4 ≤ parts.length then List.intercalate [ '/' ] (parts.take 4) else c0
    else c0
  if endsWithB (chars "/") c1 && 3 < c1.count '/' then
    (c1.reverse.dropWhile (fun c => c = '/')).reverse
  else c1

/-- Whether one of the two `twitter_patterns` regexes matches the URL with
`re.IGNORECASE` (the captured group must be non-empty for a match). -/
def twPatternHit (url : List Char) : Bool :=
  (findPlatformUser [chars "twitter.com/"] (toLowerList url)).isSome
    || (findPlatformUser [chars "x.com/"] (toLowerList url)).isSome

/-- One step of `_extract_twitter_links_from_urls`: append the cleaned URL when
a pattern matches, the cleaned URL is non-empty and not already collected. -/
def addLink (acc : List (List Char)) (url : List Char) : List (List Char) :=
  if twPatternHit url then
    let cu := clean_twitter_url url
    if !cu.isEmpty && !(acc.contains cu) then acc ++ [cu] else acc
  else acc

/-- `TwitterSearcher._extract_twitter_links_from_urls`. -/
def extract_twitter_links (urls : List (List Char)) : List (List Char) :=
  urls.foldl addLink []

/-- Invocations of external search and of the scorer, recorded as a trace. -/
inductive Event where
  | webSearch
  | googleQuery (q : List Char)
  | score (u : List Char)
  deriving DecidableEq, Repr

/-- The Google search engine and the WebDriver, as an environment: whether
`_setup_driver` succeeds, and the URL list that `_search_google` scrapes for
a query (CAPTCHA pages and selector failures yield the empty list). -/
structure GoogleOracle where
  setupOk : Bool
  results : List Char → List (List Char)

/-- The result dictionary built by `search_twitter_account`. -/
structure GResult where
  url : List Char
  confidence : ConfLevel
  needs_review : Bool
  info : ScoreInfo
  deriving DecidableEq, Repr

/-- Inner loop of `search_twitter_account`: score each extracted Twitter link
in order and return the first accepted one. -/
def tryLinks (np : NameParts) : List (List Char) → Option GResult × List Event
  | [] => (none, [])
  | l :: ls =>
    let r := should_accept_url l np (chars "twitter")
    if r.1 then (some ⟨l, r.2.1, r.2.2.1, r.2.2.2⟩, [Event.score l])
    else
      let rest := tryLinks np ls
      (rest.1, Event.score l :: rest.2)

/-- Outer loop of `search_twitter_account` over the four queries. -/
def searchLoop (g : GoogleOracle) (np : NameParts) :
    List (List Char) → Option GResult × List Event
  | [] => (none, [])
  | q :: qs =>
    let urls := g.results q
    let links := if urls.isEmpty then [] else extract_twitter_links urls
    match tryLinks np links with
    | (some r, ev) => (some r, Event.googleQuery q :: ev)
    | (none, ev) =>
      let rest := searchLoop g np qs
      (rest.1, Event.googleQuery q :: (ev ++ rest.2))

/-- Driver state after a call: `some ()` means a live WebDriver remains. -/
abbrev DriverState := Option Unit

/-- The four search queries of `search_twitter_account`. -/
def searchQueries (nome nome_parlamentar role : List Char) : List (List Char) :=
  ['"' :: nome_parlamentar ++ chars "\x22 " ++ role ++ chars " twitter",
   '"' :: nome_parlamentar ++ chars "\x22 " ++ role ++ chars " \x22x.com\x22",
   '"' :: nome_parlamentar ++ chars "\x22 " ++ role ++ chars " site:twitter.com",
   '"' :: nome ++ chars "\x22 " ++ role ++ chars " twitter"]

/-- `TwitterSearcher.search_twitter_account`: set up a driver, run the query
loop, and release the driver in the `finally` block on every exit path.
Returns the result, the invocation trace and the final driver state. -/
def search_twitter_account (g : GoogleOracle) (nome nome_parlamentar role : List Char) :
    Option GResult × List Event × DriverState :=
  if !g.setupOk then (none, [], (none : Option Unit))
  else
    let np := extract_name_parts nome nome_parlamentar
    let r := searchLoop g np (searchQueries nome nome_parlamentar role)
    (r.1, r.2, (none : Option Unit))

/-- The page-scraping body of `extract_latest_tweet_url` as an environment:
whether `_setup_driver` succeeds and what the selector search over the
profile page yields (a tweet URL, nothing, or a raised exception). -/
structure TweetPageEnv where
  setupOk : Bool
  outcome : Except Unit (Option (List Char))

/-- `TwitterSearcher.extract_latest_tweet_url`: the source returns from
inside the `try` and from the `except` handler without any `finally` or
`_cleanup_driver` call, so a successfully set-up driver is still live on
every return.  Returns the result and the final driver state. -/
def extract_latest_tweet_url (env : TweetPageEnv) (twitter_url : List Char) :
    Option (List Char) × DriverState :=
  if twitter_url.isEmpty then (none, (none : Option Unit))
  else if !env.setupOk then (none, (none : Option Unit))
  else
    match env.outcome with
    | Except.ok r => (r, (some () : Option Unit))
    | Except.error _ => (none, (some () : Option Unit))

/-- The official-pattern blocklist of
`DeputadosDataExtractor._is_official_camara_link`, already lower-cased
(the source lowers each pattern before the substring test). -/
def officialPatternsCamara : List (List Char) :=
  [chars "camaradeputados", chars "camara.leg.br", chars "camaradosdeputados",
   chars "uc-zksrh-7ueuwxjq9umcfja", chars "/camaradeputados",
   chars "@camaradeputados", chars "@camaradosdeputados",
   chars "camaradeputados.leg.br", chars "camaradeputados.com.br",
   chars "camaradeputados.org.br", chars "camara.net.br",
   chars "camaradeputados.net.br", chars "deputadoscamara",
   chars "camara-deputados", chars "camarabrasil", chars "congressonacional"]

/-- `DeputadosDataExtractor._is_official_camara_link`. -/
def is_official_camara_link (url : List Char) : Bool :=
  if url.isEmpty then false
  else officialPatternsCamara.any (fun p => substrB p (toLowerList url))

/-- The regex `(twitter\.com|x\.com)` used to select anchors on the chamber
page (case-sensitive in the source). -/
def twRe (href : List Char) : Bool :=
  substrB (chars "twitter.com") href || substrB (chars "x.com") href

/-- An anchor in the main-content area together with the classes of its
ancestor elements. -/
structure MainLink where
  href : List Char
  ancestorClasses : List (List Char)
  deriving DecidableEq, Repr

/-- The `l-grid-social-media` div: the `data-urlTwitter` attribute of the
Twitter widget when that widget div exists (possibly the empty string), and
the anchor hrefs inside the div. -/
structure SocialDiv where
  widget : Option (List Char)
  links : List (List Char)
  deriving DecidableEq, Repr

/-- The parsed chamber profile page. -/
structure ChamberPage where
  socialDiv : Option SocialDiv
  mainContent : Option (List MainLink)
  allLinks : List (List Char)
  deriving DecidableEq, Repr

/-- Whether an anchor sits under a footer/sidebar ancestor
(`footer`/`rodape` in some ancestor class, case-insensitively). -/
def hasFooterClass (lk : MainLink) : Bool :=
  lk.ancestorClasses.any (fun cls =>
    substrB (chars "footer") (toLowerList cls) || substrB (chars "rodape") (toLowerList cls))

/-- URL built from the widget handle: used verbatim when it starts with
`http`, otherwise prefixed with the Twitter domain after removing leading
`@` characters. -/
def widgetUrl (h : List Char) : List Char :=
  if isPrefixB (chars "http") h then h
  else chars "https://twitter.com/" ++ h.dropWhile (fun c => c = '@')

/-- Widget pass of STEP 2: the `data-urlTwitter` handle of the Twitter
widget, taken without any blocklist check. -/
def step2_widget (page : ChamberPage) : Option (List Char) :=
  match page.socialDiv with
  | some d =>
    match d.widget with
    | some h => if h.isEmpty then none else some (widgetUrl h)
    | none => none
  | none => none

/-- Social-div anchor pass of STEP 2: first Twitter anchor in the div that is
not an official chamber link. -/
def step2_div (page : ChamberPage) : Option (List Char) :=
  match page.socialDiv with
  | some d => d.links.find? (fun h => twRe h && !is_official_camara_link h)
  | none => none

/-- Main-content anchor pass of STEP 2: first Twitter anchor outside
footer/sidebar regions that is not an official chamber link. -/
def step2_main (page : ChamberPage) : Option (List Char) :=
  match page.mainContent with
  | some links =>
    (links.find? (fun lk =>
      twRe lk.href && !hasFooterClass lk && !is_official_camara_link lk.href)).map
      (fun lk => lk.href)
  | none => none

/-- Whole-page fallback pass of STEP 2: first Twitter anchor anywhere on the
page that is not an official chamber link. -/
def step2_all (page : ChamberPage) : Option (List Char) :=
  page.allLinks.find? (fun h => twRe h && !is_official_camara_link h)

/-- STEP 2 of `extract_twitter_info` (chamber-website scraping): the widget
pass (high confidence, no blocklist check), then the social-div anchor pass
and the main-content anchor pass (medium confidence), and the whole-page
fallback pass (low confidence). -/
def step2_chamber (page : ChamberPage) : Option (List Char × ConfLevel) :=
  match step2_widget page with
  | some u => some (u, ConfLevel.high)
  | none =>
    match step2_div page with
    | some u => some (u, ConfLevel.medium)
    | none =>
      match step2_main page with
      | some u => some (u, ConfLevel.medium)
      | none => (step2_all page).map (fun u => (u, ConfLevel.low))

/-- STEP 1 of `extract_twitter_info`: the first URL of the official API's
`redeSocial` list whose lower-cased form contains `twitter.com` or `x.com`. -/
def step1_api (redeSocial : List (List Char)) : Option (List Char) :=
  redeSocial.find? (fun u =>
    substrB (chars "twitter.com") (toLowerList u) || substrB (chars "x.com") (toLowerList u))

/-- The `source` values written into the metadata by `extract_twitter_info`. -/
inductive Source where
  | official_api
  | chamber_website
  | google_search
  deriving DecidableEq, Repr

/-- The metadata dictionary of `extract_twitter_info` (the free-text
`details` entry carries no decision logic and is omitted). -/
structure Metadata where
  source : Option Source
  confidence : Option ConfLevel
  needs_review : Bool
  deriving DecidableEq, Repr

/-- The dictionary returned by `extract_twitter_info` (the redundant
`twitter_info` sub-dictionary, a copy of `twitter_url`, is omitted). -/
structure ExtractResult where
  twitter_url : Option (List Char)
  latest_tweet_url : Option (List Char)
  metadata : Metadata
  deriving DecidableEq, Repr

/-- The external world of one `extract_twitter_info` call: the API's
`redeSocial` list (network errors and missing fields yield `[]`, as the
source catches them), the chamber page fetch (an `error` is a raised
request/parse exception, caught by the source), the fallback flag and names,
the Google oracle, and the latest-tweet lookup (whose own driver handling is
modelled separately by `extract_latest_tweet_url`). -/
structure ExtractEnv where
  redeSocial : List (List Char)
  chamber : Except Unit ChamberPage
  useGoogleFallback : Bool
  nome : List Char
  nomeParlamentar : List Char
  google : GoogleOracle
  latestTweet : List Char → Option (List Char)

/-- STEP 3 of `extract_twitter_info`: the Google fallback, entered only with
the flag set and both names non-empty; an accepted result replaces the whole
metadata dictionary, otherwise the initial metadata survives. -/
def step3_google (env : ExtractEnv) : ExtractResult × List Event :=
  if env.useGoogleFallback && !env.nome.isEmpty && !env.nomeParlamentar.isEmpty then
    match search_twitter_account env.google env.nome env.nomeParlamentar (chars "deputado") with
    | (some g, ev, _) =>
      ({ twitter_url := some g.url
         latest_tweet_url := env.latestTweet g.url
         metadata :=
           { source := some Source.google_search
             confidence := some g.confidence
             needs_review := g.needs_review } }, Event.webSearch :: ev)
    | (none, ev, _) =>
      ({ twitter_url := none, latest_tweet_url := none
         metadata := { source := none, confidence := none, needs_review := false } },
       Event.webSearch :: ev)
  else
    ({ twitter_url := none, latest_tweet_url := none
       metadata := { source := none, confidence := none, needs_review := false } }, [])

/-- `DeputadosDataExtractor.extract_twitter_info`: official API first
(returning immediately with `official_api`/`high` on any Twitter URL), then
the chamber website, then the Google fallback.  Also returns the trace of
web-search and scorer invocations. -/
def extract_twitter_info (env : ExtractEnv) : ExtractResult × List Event :=
  match step1_api env.redeSocial with
  | some u =>
    ({ twitter_url := some u
       latest_tweet_url := env.latestTweet u
       metadata :=
         { source := some Source.official_api
           confidence := some ConfLevel.high
           needs_review := false } }, [])
  | none =>
    match env.chamber with
    | Except.ok page =>
      match step2_chamber page with
      | some uc =>
        ({ twitter_url := some uc.1
           latest_tweet_url := env.latestTweet uc.1
           metadata :=
             { source := some Source.chamber_website
               confidence := some uc.2
               needs_review := false } }, [])
      | none => step3_google env
    | Except.error _ => step3_google env

/-- One HTTP attempt's outcome for `GrokTwitterService._make_request`. -/
inductive GrokResp where
  | status (n : Nat)
  | netErr
  deriving DecidableEq, Repr

/-- The error classes raised by `GrokTwitterService._make_request`. -/
inductive GrokErrKind where
  | unauthorized
  | forbidden
  | rateLimited
  | serverErr
  | unexpected
  | requestFailed
  | maxRetriesExceeded
  deriving DecidableEq, Repr

/-- `self.max_retries` of `GrokTwitterService`. -/
def maxRetriesN : Nat := 3

/-- `self.retry_delay` of `GrokTwitterService` (seconds). -/
def retryDelayN : Nat := 1

/-- The attempt loop of `GrokTwitterService._make_request` over the per-attempt
outcomes `resp`: 200 returns; 401/403 raise immediately; 429, 5xx and request
exceptions sleep `retry_delay * (attempt + 1)` seconds and retry while
attempts remain, raising on the last attempt; any other status raises.
Returns the outcome, the number of attempts made, and the sleep durations. -/
def runAttempts (resp : Nat → GrokResp) : Nat → Nat → Except GrokErrKind Unit × Nat × List Nat
  | _, 0 => (Except.error GrokErrKind.maxRetriesExceeded, 0, [])
  | attempt, fuel + 1 =>
    let retry (e : GrokErrKind) : Except GrokErrKind Unit × Nat × List Nat :=
      if attempt < maxRetriesN - 1 then
        let r := runAttempts resp (attempt + 1) fuel
        (r.1, r.2.1 + 1, retryDelayN * (attempt + 1) :: r.2.2)
      else (Except.error e, 1, [])
    match resp attempt with
    | GrokResp.netErr => retry GrokErrKind.requestFailed
    | GrokResp.status n =>
      if n = 200 then (Except.ok (), 1, [])
      else if n = 401 then (Except.error GrokErrKind.unauthorized, 1, [])
      else if n = 403 then (Except.error GrokErrKind.forbidden, 1, [])
      else if n = 429 then retry GrokErrKind.rateLimited
      else if 500 ≤ n then retry GrokErrKind.serverErr
      else (Except.error GrokErrKind.unexpected, 1, [])

/-- `GrokTwitterService._make_request`. -/
def make_request (resp : Nat → GrokResp) : Except GrokErrKind Unit × Nat × List Nat :=
  runAttempts resp 0 maxRetriesN

/-- Name parts of the running example identity. -/
def npMS : NameParts := extract_name_parts (chars "Maria Souza") (chars "Maria Souza")

/-- A candidate URL with a long digit run, no name-token match and four
official keywords in the username. -/
def urlKw : List Char := chars "https://twitter.com/deputadooficialbrasilcamara1234"

/-- A URL carrying official keywords from which no platform username can be
extracted. -/
def urlNoUser : List Char := chars "https://camara.leg.br/deputados/123"

/-- Environment where the official API itself lists the chamber's own
institutional Twitter account. -/
def envInstApi : ExtractEnv :=
  { redeSocial := [chars "https://twitter.com/camaradeputados"]
    chamber := Except.error ()
    useGoogleFallback := false
    nome := []
    nomeParlamentar := []
    google := { setupOk := false, results := fun _ => [] }
    latestTweet := fun _ => none }

/-- Chamber page whose Twitter widget carries the chamber's own handle. -/
def pageInstWidget : ChamberPage :=
  { socialDiv := some { widget := some (chars "@camaradeputados"), links := [] }
    mainContent := none
    allLinks := [] }

/-- Chamber page where the social-div anchor pass finds a personal account. -/
def pageDivLink : ChamberPage :=
  { socialDiv := some { widget := none, links := [chars "https://twitter.com/mariasouza"] }
    mainContent := none
    allLinks := [] }

/-- Environment where the official API lists a personal Twitter account. -/
def envApiPersonal : ExtractEnv :=
  { redeSocial := [chars "https://x.com/mariasouza"]
    chamber := Except.error ()
    useGoogleFallback := true
    nome := chars "Maria Souza"
    nomeParlamentar := chars "Maria Souza"
    google := { setupOk := true, results := fun _ => [chars "https://x.com/mariasouza"] }
    latestTweet := fun _ => none }

/-- Environment where the official API lists a personal Twitter account
(needs-review bookkeeping example). -/
def envApiReview : ExtractEnv :=
  { redeSocial := [chars "https://twitter.com/jgsilva"]
    chamber := Except.error ()
    useGoogleFallback := false
    nome := []
    nomeParlamentar := []
    google := { setupOk := false, results := fun _ => [] }
    latestTweet := fun _ => none }

theorem runAttempts_le (resp : Nat → GrokResp) :
    ∀ fuel attempt, (runAttempts resp attempt fuel).2.1 ≤ fuel := by
  intro fuel
  induction fuel with
  | zero => intro attempt; simp [runAttempts]
  | succ f ih =>
    intro attempt
    unfold runAttempts
    cases resp attempt with
    | netErr =>
      simp only []
      split
      · exact Nat.succ_le_succ (ih (attempt + 1))
      · exact Nat.succ_le_succ (Nat.zero_le f)
    | status n =>
      simp only []
      split
      · exact Nat.succ_le_succ (Nat.zero_le f)
      · split
        · exact Nat.succ_le_succ (Nat.zero_le f)
        · split
          · exact Nat.succ_le_succ (Nat.zero_le f)
          · split
            · split
              · exact Nat.succ_le_succ (ih (attempt + 1))
              · exact Nat.succ_le_succ (Nat.zero_le f)
            · split
              · split
                · exact Nat.succ_le_succ (ih (attempt + 1))
                · exact Nat.succ_le_succ (Nat.zero_le f)
              · exact Nat.succ_le_succ (Nat.zero_le f)

/-- C3: for every candidate URL, token set and platform, the scorer's tier
and review flag are exactly the spec's mapping of its numeric score
(score ≥ 8 → high, no review; 4 ≤ score < 8 → medium, review;
score < 4 → low, review). -/
theorem C3_tier_mapping (url : List Char) (np : NameParts) (platform : List Char) :
    ((calc_url_confidence url np platform).1, (calc_url_confidence url np platform).2.1)
      = specTier (calc_url_confidence url np platform).2.2.score := rfl

/-- C7: the AI-assistant request loop retries 429 and 5xx responses up to the
fixed maximum of 3 attempts, sleeping `retry_delay * (attempt + 1)` seconds
between attempts (1s then 2s, each delay double the previous), while 401 and
403 raise on the first attempt with no retry and no sleep; the attempt count
never exceeds the maximum. -/
theorem C7_retry_backoff (resp : Nat → GrokResp) :
    (resp 0 = GrokResp.status 401 →
      make_request resp = (Except.error GrokErrKind.unauthorized, 1, []))
  ∧ (resp 0 = GrokResp.status 403 →
      make_request resp = (Except.error GrokErrKind.forbidden, 1, []))
  ∧ ((∀ i, i < maxRetriesN → resp i = GrokResp.status 429) →
      make_request resp =
        (Except.error GrokErrKind.rateLimited, maxRetriesN,
         [retryDelayN * 1, retryDelayN * 2]))
  ∧ ((∀ i, i < maxRetriesN → ∃ n, 500 ≤ n ∧ resp i = GrokResp.status n) →
      make_request resp =
        (Except.error GrokErrKind.serverErr, maxRetriesN,
         [retryDelayN * 1, retryDelayN * 2]))
  ∧ (make_request resp).2.1 ≤ maxRetriesN := by
  refine ⟨?_, ?_, ?_, ?_, runAttempts_le resp maxRetriesN 0⟩
  · intro h
    simp [make_request, maxRetriesN, runAttempts, h]
  · intro h
    simp [make_request, maxRetriesN, runAttempts, h]
  · intro h
    have h0 := h 0 (by decide)
    have h1 := h 1 (by decide)
    have h2 := h 2 (by decide)
    simp [make_request, maxRetriesN, retryDelayN, runAttempts, h0, h1, h2]
  · intro h
    obtain ⟨n0, hn0, he0⟩ := h 0 (by decide)
    obtain ⟨n1, hn1, he1⟩ := h 1 (by decide)
    obtain ⟨n2, hn2, he2⟩ := h 2 (by decide)
    have d0 : n0 ≠ 200 ∧ n0 ≠ 401 ∧ n0 ≠ 403 ∧ n0 ≠ 429 := by omega
    have d1 : n1 ≠ 200 ∧ n1 ≠ 401 ∧ n1 ≠ 403 ∧ n1 ≠ 429 := by omega
    have d2 : n2 ≠ 200 ∧ n2 ≠ 401 ∧ n2 ≠ 403 ∧ n2 ≠ 429 := by omega
    simp [make_request, maxRetriesN, retryDelayN, runAttempts, he0, he1, he2,
      d0.1, d0.2.1, d0.2.2.1, d0.2.2.2, d1.1, d1.2.1, d1.2.2.1, d1.2.2.2,
      d2.1, d2.2.1, d2.2.2.1, d2.2.2.2, hn0, hn1, hn2]

/-- Witness for C7 at the all-429 and the immediate-401 responses. -/
theorem C7_retry_backoff_witness :
    make_request (fun _ => GrokResp.status 429)
      = (Except.error GrokErrKind.rateLimited, maxRetriesN, [retryDelayN * 1, retryDelayN * 2])
  ∧ make_request (fun _ => GrokResp.status 401)
      = (Except.error GrokErrKind.unauthorized, 1, []) :=
  ⟨(C7_retry_backoff (fun _ => GrokResp.status 429)).2.2.1 (fun _ _ => rfl),
   (C7_retry_backoff (fun _ => GrokResp.status 401)).1 rfl⟩

/-- C9: `extract_latest_tweet_url` leaves the WebDriver live on every exit
path that set one up (tweet found, no tweet found, exception raised), while
its sibling `search_twitter_account` releases it in its `finally` block. -/
theorem C9_driver_leak :
    (extract_latest_tweet_url
      { setupOk := true, outcome := Except.ok (some (chars "https://x.com/a/status/123456789012")) }
      (chars "https://x.com/a")).2 = some ()
  ∧ (extract_latest_tweet_url { setupOk := true, outcome := Except.ok none }
      (chars "https://x.com/a")).2 = some ()
  ∧ (extract_latest_tweet_url { setupOk := true, outcome := Except.error () }
      (chars "https://x.com/a")).2 = some ()
  ∧ (search_twitter_account { setupOk := true, results := fun _ => [] }
      (chars "Maria Souza") (chars "Maria Souza") (chars "deputado")).2.2 = none :=
  ⟨rfl, rfl, rfl, rfl⟩

/-- C2: when the official-API step yields a (non-institutional) Twitter URL,
`extract_twitter_info` returns it immediately with source `official_api` and
confidence `high`, and neither the web-search fallback nor the scorer is
ever invoked. -/
theorem C2_official_api_short_circuit (env : ExtractEnv) (u : List Char)
    (h1 : step1_api env.redeSocial = some u)
    (_h2 : is_official_camara_link u = false) :
    (extract_twitter_info env).1.metadata.source = some Source.official_api
  ∧ (extract_twitter_info env).1.metadata.confidence = some ConfLevel.high
  ∧ (extract_twitter_info env).1.twitter_url = some u
  ∧ Event.webSearch ∉ (extract_twitter_info env).2
  ∧ ∀ v, Event.score v ∉ (extract_twitter_info env).2 := by
  simp [extract_twitter_info, h1]

/-- Witness for C2: a personal account URL in the API's redeSocial list. -/
theorem C2_official_api_short_circuit_witness :
    (extract_twitter_info envApiPersonal).1.metadata.source = some Source.official_api
  ∧ (extract_twitter_info envApiPersonal).1.metadata.confidence = some ConfLevel.high
  ∧ (extract_twitter_info envApiPersonal).1.twitter_url = some (chars "https://x.com/mariasouza")
  ∧ Event.webSearch ∉ (extract_twitter_info envApiPersonal).2
  ∧ ∀ v, Event.score v ∉ (extract_twitter_info envApiPersonal).2 :=
  C2_official_api_short_circuit envApiPersonal (chars "https://x.com/mariasouza")
    (by decide) (by decide)

theorem extract_metadata_cases (env : ExtractEnv) :
    (extract_twitter_info env).1.metadata.needs_review = false ∨
    (extract_twitter_info env).1.metadata.source = some Source.google_search := by
  unfold extract_twitter_info
  split
  · exact Or.inl rfl
  · split
    · split
      · exact Or.inl rfl
      · unfold step3_google
        split
        · split
          · exact Or.inr rfl
          · exact Or.inl rfl
        · exact Or.inl rfl
    · unfold step3_google
      split
      · split
        · exact Or.inr rfl
        · exact Or.inl rfl
      · exact Or.inl rfl

/-- C10: a resolution result whose source is `official_api` or
`chamber_website` always has `needs_review = false` (the chamber branches,
including the medium- and low-confidence ones, never touch the flag); only a
`google_search` result can carry `needs_review = true`. -/
theorem C10_needs_review_sources (env : ExtractEnv) :
    ((extract_twitter_info env).1.metadata.source = some Source.official_api ∨
     (extract_twitter_info env).1.metadata.source = some Source.chamber_website →
      (extract_twitter_info env).1.metadata.needs_review = false)
  ∧ ((extract_twitter_info env).1.metadata.needs_review = true →
      (extract_twitter_info env).1.metadata.source = some Source.google_search) := by
  rcases extract_metadata_cases env with h | h
  · exact ⟨fun _ => h, fun h' => absurd (h' ▸ h) (by simp)⟩
  · refine ⟨fun h' => ?_, fun _ => h⟩
    rcases h' with h' | h' <;> rw [h'] at h <;> exact absurd (Option.some.inj h) (by simp)

/-- Witness for C10 at an official-API result. -/
theorem C10_needs_review_sources_witness :
    (extract_twitter_info envApiReview).1.metadata.needs_review = false :=
  (C10_needs_review_sources envApiReview).1 (Or.inl (by decide))

/-- Counterexample to C1: the official API's redeSocial list can contain the
chamber's institutional account and `extract_twitter_info` returns it
unfiltered as the resolved candidate. -/
theorem C1_institutional_filter_cex :
    (extract_twitter_info envInstApi).1.twitter_url
      = some (chars "https://twitter.com/camaradeputados")
  ∧ (extract_twitter_info envInstApi).1.metadata.source = some Source.official_api
  ∧ is_official_camara_link (chars "https://twitter.com/camaradeputados") = true := by
  decide

/-- C1 (amended): the institutional blocklist is applied to the three
chamber-website anchor-scan passes — any chamber-website candidate of medium
or low confidence is never an official chamber link — while the official
API's redeSocial URLs and the chamber widget handle are accepted without the
blocklist check (the widget can yield the institutional account itself, at
high confidence). -/
theorem C1_institutional_filter_amended :
    (∀ page u c, step2_chamber page = some (u, c) →
      (c = ConfLevel.medium ∨ c = ConfLevel.low) → is_official_camara_link u = false)
  ∧ (step2_chamber pageInstWidget
      = some (chars "https://twitter.com/camaradeputados", ConfLevel.high)
    ∧ is_official_camara_link (chars "https://twitter.com/camaradeputados") = true) := by
  constructor
  · intro page u c h hc
    unfold step2_chamber at h
    split at h
    · rcases h with ⟨rfl, rfl⟩
      rcases hc with hc | hc <;> exact absurd hc (by simp)
    · split at h
      · next hdiv =>
        rcases h with ⟨rfl, rfl⟩
        unfold step2_div at hdiv
        split at hdiv
        · have := List.find?_some hdiv
          simp only [Bool.and_eq_true, Bool.not_eq_true'] at this
          exact this.2
        · exact absurd hdiv (by simp)
      · split at h
        · next hmain =>
          rcases h with ⟨rfl, rfl⟩
          unfold step2_main at hmain
          split at hmain
          · rw [Option.map_eq_some'] at hmain
            obtain ⟨lk, hfind, rfl⟩ := hmain
            have := List.find?_some hfind
            simp only [Bool.and_eq_true, Bool.not_eq_true'] at this
            exact this.2
          · exact absurd hmain (by simp)
        · rw [Option.map_eq_some'] at h
          obtain ⟨v, hfind, hv⟩ := h
          simp only [Prod.mk.injEq] at hv
          obtain ⟨rfl, rfl⟩ := hv
          have := List.find?_some hfind
          simp only [Bool.and_eq_true, Bool.not_eq_true'] at this
          exact this.2
  · exact ⟨by decide, by decide⟩

/-- Witness for C1's amended statement at a concrete anchor-scan page. -/
theorem C1_institutional_filter_amended_witness :
    is_official_camara_link (chars "https://twitter.com/mariasouza") = false :=
  C1_institutional_filter_amended.1 pageDivLink (chars "https://twitter.com/mariasouza")
    ConfLevel.medium (by decide) (Or.inl rfl)

theorem headD_mem {α : Type} (l : List α) (d : α) (h : l ≠ []) : l.headD d ∈ l := by
  cases l with
  | nil => exact absurd rfl h
  | cons a t => exact List.mem_cons_self a t

theorem getLastD_mem {α : Type} : ∀ (l : List α) (d : α), l ≠ [] → l.getLastD d ∈ l := by
  intro l
  induction l with
  | nil => intro d h; exact absurd rfl h
  | cons a t ih =>
    intro d _
    rw [List.getLastD_cons]
    cases t with
    | nil => exact List.mem_cons_self a []
    | cons b t2 => exact List.mem_cons_of_mem a (ih a (by simp))

theorem first_name_eq (nome parl : List Char) :
    (extract_name_parts nome parl).first_name
      = (extract_name_parts nome parl).full_parts.headD [] := rfl

theorem parl_first_eq (nome parl : List Char) :
    (extract_name_parts nome parl).parl_first
      = (extract_name_parts nome parl).parl_parts.headD [] := rfl

theorem all_significant_eq (nome parl : List Char) :
    (extract_name_parts nome parl).all_significant
      = ((extract_name_parts nome parl).full_parts
          ++ (extract_name_parts nome parl).parl_parts).dedup := rfl

theorem mem_allsig_of_full {nome parl t : List Char}
    (h : t ∈ (extract_name_parts nome parl).full_parts) :
    t ∈ (extract_name_parts nome parl).all_significant := by
  rw [all_significant_eq]
  exact List.mem_dedup.mpr (List.mem_append_left _ h)

theorem mem_allsig_of_parl {nome parl t : List Char}
    (h : t ∈ (extract_name_parts nome parl).parl_parts) :
    t ∈ (extract_name_parts nome parl).all_significant := by
  rw [all_significant_eq]
  exact List.mem_dedup.mpr (List.mem_append_right _ h)

theorem first_name_mem {nome parl : List Char}
    (h : (extract_name_parts nome parl).first_name ≠ []) :
    (extract_name_parts nome parl).first_name ∈ (extract_name_parts nome parl).all_significant := by
  apply mem_allsig_of_full
  rw [first_name_eq] at h ⊢
  apply headD_mem
  intro hnil
  rw [hnil] at h
  exact h rfl

theorem parl_first_mem {nome parl : List Char}
    (h : (extract_name_parts nome parl).parl_first ≠ []) :
    (extract_name_parts nome parl).parl_first ∈ (extract_name_parts nome parl).all_significant := by
  apply mem_allsig_of_parl
  rw [parl_first_eq] at h ⊢
  apply headD_mem
  intro hnil
  rw [hnil] at h
  exact h rfl

theorem last_name_mem {nome parl : List Char}
    (h : (extract_name_parts nome parl).last_name ≠ []) :
    (extract_name_parts nome parl).last_name ∈ (extract_name_parts nome parl).all_significant := by
  apply mem_allsig_of_full
  show (if 1 < (extract_name_parts nome parl).full_parts.length then
      (extract_name_parts nome parl).full_parts.getLastD [] else []) ∈ _
  have h' : (if 1 < (extract_name_parts nome parl).full_parts.length then
      (extract_name_parts nome parl).full_parts.getLastD [] else []) ≠ [] := h
  by_cases hlen : 1 < (extract_name_parts nome parl).full_parts.length
  · rw [if_pos hlen]
    apply getLastD_mem
    intro hnil
    rw [hnil] at hlen
    simp at hlen
  · rw [if_neg hlen] at h'
    exact absurd rfl h'

theorem parl_last_mem {nome parl : List Char}
    (h : (extract_name_parts nome parl).parl_last ≠ []) :
    (extract_name_parts nome parl).parl_last ∈ (extract_name_parts nome parl).all_significant := by
  apply mem_allsig_of_parl
  show (if 1 < (extract_name_parts nome parl).parl_parts.length then
      (extract_name_parts nome parl).parl_parts.getLastD [] else []) ∈ _
  have h' : (if 1 < (extract_name_parts nome parl).parl_parts.length then
      (extract_name_parts nome parl).parl_parts.getLastD [] else []) ≠ [] := h
  by_cases hlen : 1 < (extract_name_parts nome parl).parl_parts.length
  · rw [if_pos hlen]
    apply getLastD_mem
    intro hnil
    rw [hnil] at hlen
    simp at hlen
  · rw [if_neg hlen] at h'
    exact absurd rfl h'

theorem mem_allsig_length {nome parl t : List Char}
    (h : t ∈ (extract_name_parts nome parl).all_significant) : 2 < t.length := by
  rw [all_significant_eq] at h
  rcases List.mem_append.mp (List.mem_dedup.mp h) with h' | h' <;>
    exact of_decide_eq_true (List.mem_filter.mp h').2

/-- Counterexample to C4: a username with a 4-digit run and no name-token
match is still accepted at medium confidence when official keywords occur in
it (the +2-per-keyword bonus offsets the −3 digit-run penalty). -/
theorem C4_digit_run_cex :
    hasDigitRun4 (extract_username urlKw (chars "twitter")) = true
  ∧ (∀ t ∈ npMS.all_significant, substrB t (extract_username urlKw (chars "twitter")) = false)
  ∧ (should_accept_url urlKw npMS (chars "twitter")).1 = true
  ∧ (should_accept_url urlKw npMS (chars "twitter")).2.1 = ConfLevel.medium := by
  decide

/-- C4 (amended): a candidate whose username has a ≥4-digit run, matches no
name token, and carries no official keyword in its username or URL is always
scored low and rejected by the accept filter. -/
theorem C4_digit_run_amended (nome parl url platform : List Char)
    (hd : hasDigitRun4 (extract_username url platform) = true)
    (hno : ∀ t ∈ (extract_name_parts nome parl).all_significant,
      substrB t (extract_username url platform) = false)
    (hkw : ∀ k ∈ officialKeywords,
      substrB k (extract_username url platform) = false
        ∧ substrB k (toLowerList url) = false) :
    (calc_url_confidence url (extract_name_parts nome parl) platform).1 = ConfLevel.low
  ∧ (should_accept_url url (extract_name_parts nome parl) platform).1 = false := by
  have ht : (extract_name_parts nome parl).all_significant.filter
      (fun t => substrB t (extract_username url platform)) = [] :=
    List.filter_eq_nil_iff.mpr (fun t htm => by simp [hno t htm])
  have hb : (!(extract_name_parts nome parl).first_name.isEmpty
      && !(extract_name_parts nome parl).last_name.isEmpty
      && substrB (extract_name_parts nome parl).first_name (extract_username url platform)
      && substrB (extract_name_parts nome parl).last_name (extract_username url platform))
      = false := by
    by_cases hf : (extract_name_parts nome parl).first_name = []
    · simp [hf]
    · simp [hno _ (first_name_mem hf)]
  have hpf : (!(extract_name_parts nome parl).parl_first.isEmpty
      && substrB (extract_name_parts nome parl).parl_first (extract_username url platform))
      = false := by
    by_cases hf : (extract_name_parts nome parl).parl_first = []
    · simp [hf]
    · simp [hno _ (parl_first_mem hf)]
  have hpl : (!(extract_name_parts nome parl).parl_last.isEmpty
      && substrB (extract_name_parts nome parl).parl_last (extract_username url platform))
      = false := by
    by_cases hf : (extract_name_parts nome parl).parl_last = []
    · simp [hf]
    · simp [hno _ (parl_last_mem hf)]
  have hkwnil : officialKeywords.filter
      (fun k => substrB k (extract_username url platform) || substrB k (toLowerList url))
      = [] :=
    List.filter_eq_nil_iff.mpr (fun k hk => by simp [(hkw k hk).1, (hkw k hk).2])
  have hspmem : SPat.digits ∈ spatList.filter
      (fun p => suspiciousMatch p (extract_username url platform)) :=
    List.mem_filter.mpr ⟨by decide, hd⟩
  have hsplen : 1 ≤ (spatList.filter
      (fun p => suspiciousMatch p (extract_username url platform))).length :=
    List.length_pos.mpr (List.ne_nil_of_mem hspmem)
  have hscore : (scoreInfoOf url (extract_name_parts nome parl) platform).score < 4 := by
    simp only [scoreInfoOf, ht, hb, hpf, hpl, hkwnil, List.length_nil, if_false,
      Bool.false_eq_true, Nat.cast_zero]
    omega
  have hconf : (calc_url_confidence url (extract_name_parts nome parl) platform).1
      = ConfLevel.low := by
    show (tierOf (scoreInfoOf url (extract_name_parts nome parl) platform).score).1
      = ConfLevel.low
    unfold tierOf
    rw [if_neg (by omega), if_neg (by omega)]
  refine ⟨hconf, ?_⟩
  unfold should_accept_url
  rw [if_pos hconf]

/-- Witness for C4's amended statement: a keyword-free fan-style handle. -/
theorem C4_digit_run_amended_witness :
    (calc_url_confidence (chars "https://twitter.com/randomperson1234")
      (extract_name_parts (chars "Maria Souza") (chars "Maria Souza")) (chars "twitter")).1
      = ConfLevel.low
  ∧ (should_accept_url (chars "https://twitter.com/randomperson1234")
      (extract_name_parts (chars "Maria Souza") (chars "Maria Souza")) (chars "twitter")).1
      = false :=
  C4_digit_run_amended (chars "Maria Souza") (chars "Maria Souza")
    (chars "https://twitter.com/randomperson1234") (chars "twitter")
    (by decide) (by decide) (by decide)

/-- C5: a candidate whose extracted username contains both the (non-empty)
civil first and last name tokens and matches no suspicious pattern scores at
least 8 and is tiered high. -/
theorem C5_first_last_high (nome parl url platform : List Char)
    (hf : (extract_name_parts nome parl).first_name ≠ [])
    (hl : (extract_name_parts nome parl).last_name ≠ [])
    (hfu : substrB (extract_name_parts nome parl).first_name
      (extract_username url platform) = true)
    (hlu : substrB (extract_name_parts nome parl).last_name
      (extract_username url platform) = true)
    (hs : ∀ p ∈ spatList, suspiciousMatch p (extract_username url platform) = false) :
    8 ≤ (scoreInfoOf url (extract_name_parts nome parl) platform).score
  ∧ (calc_url_confidence url (extract_name_parts nome parl) platform).1 = ConfLevel.high := by
  have hsp : spatList.filter
      (fun p => suspiciousMatch p (extract_username url platform)) = [] :=
    List.filter_eq_nil_iff.mpr (fun p hp => by simp [hs p hp])
  have hft : (extract_name_parts nome parl).first_name
      ∈ (extract_name_parts nome parl).all_significant.filter
        (fun t => substrB t (extract_username url platform)) :=
    List.mem_filter.mpr ⟨first_name_mem hf, hfu⟩
  have hlen : 1 ≤ ((extract_name_parts nome parl).all_significant.filter
      (fun t => substrB t (extract_username url platform))).length :=
    List.length_pos.mpr (List.ne_nil_of_mem hft)
  have hb : (!(extract_name_parts nome parl).first_name.isEmpty
      && !(extract_name_parts nome parl).last_name.isEmpty
      && substrB (extract_name_parts nome parl).first_name (extract_username url platform)
      && substrB (extract_name_parts nome parl).last_name (extract_username url platform))
      = true := by
    simp [hfu, hlu, hf, hl]
  have hscore : 8 ≤ (scoreInfoOf url (extract_name_parts nome parl) platform).score := by
    simp only [scoreInfoOf, hsp, hb, List.length_nil, if_true, Nat.cast_zero]
    have h2a : (0 : Int) ≤ if (!(extract_name_parts nome parl).parl_first.isEmpty
        && substrB (extract_name_parts nome parl).parl_first (extract_username url platform))
        = true then 2 else 0 := by split <;> norm_num
    have h2b : (0 : Int) ≤ if (!(extract_name_parts nome parl).parl_last.isEmpty
        && substrB (extract_name_parts nome parl).parl_last (extract_username url platform))
        = true then 2 else 0 := by split <;> norm_num
    have h2c : (0 : Int) ≤ 2 * ((officialKeywords.filter
        (fun k => substrB k (extract_username url platform)
          || substrB k (toLowerList url))).length : Int) := by positivity
    omega
  refine ⟨hscore, ?_⟩
  show (tierOf (scoreInfoOf url (extract_name_parts nome parl) platform).score).1
    = ConfLevel.high
  unfold tierOf
  rw [if_pos (by omega)]

/-- Witness for C5 at a first-plus-last username. -/
theorem C5_first_last_high_witness :
    8 ≤ (scoreInfoOf (chars "https://x.com/mariasouza")
      (extract_name_parts (chars "Maria Souza") (chars "Maria Souza")) (chars "twitter")).score
  ∧ (calc_url_confidence (chars "https://x.com/mariasouza")
      (extract_name_parts (chars "Maria Souza") (chars "Maria Souza")) (chars "twitter")).1
      = ConfLevel.high :=
  C5_first_last_high (chars "Maria Souza") (chars "Maria Souza")
    (chars "https://x.com/mariasouza") (chars "twitter")
    (by decide) (by decide) (by decide) (by decide) (by decide)

/-- Counterexample to C6: a URL with no extractable username is not scored
low with an "unparseable URL" reason; keyword matches against the URL alone
lift it to medium, and its reasons are plain keyword entries. -/
theorem C6_unparseable_cex :
    extract_username urlNoUser (chars "twitter") = []
  ∧ (calc_url_confidence urlNoUser npMS (chars "twitter")).1 = ConfLevel.medium
  ∧ (calc_url_confidence urlNoUser npMS (chars "twitter")).2.2.details
      = [Reason.keyword (chars "deputado"), Reason.keyword (chars "camara")] := by
  decide

/-- C6 (amended): when no platform username can be extracted, scoring
proceeds with the empty username — name-token, pair-bonus, parliamentary and
suspicious-pattern checks contribute nothing, the score is twice the number
of official keywords occurring in the URL, the reasons are exactly those
keyword entries (no "unparseable URL" reason exists in the code), and the
tier follows the standard score mapping (so it can be medium or high). -/
theorem C6_unparseable_amended (nome parl url platform : List Char)
    (hu : extract_username url platform = []) :
    (scoreInfoOf url (extract_name_parts nome parl) platform).score
      = 2 * ((officialKeywords.filter (fun k => substrB k (toLowerList url))).length : Int)
  ∧ (scoreInfoOf url (extract_name_parts nome parl) platform).details
      = (officialKeywords.filter (fun k => substrB k (toLowerList url))).map Reason.keyword
  ∧ (calc_url_confidence url (extract_name_parts nome parl) platform).1
      = (tierOf (scoreInfoOf url (extract_name_parts nome parl) platform).score).1 := by
  have ht : (extract_name_parts nome parl).all_significant.filter
      (fun t => substrB t (extract_username url platform)) = [] := by
    apply List.filter_eq_nil_iff.mpr
    intro t htm
    rw [hu]
    have : 2 < t.length := mem_allsig_length htm
    have : t ≠ [] := by intro h0; rw [h0] at this; simp at this
    simp [substrB, List.isEmpty_eq_false.mpr this]
  have hb : (!(extract_name_parts nome parl).first_name.isEmpty
      && !(extract_name_parts nome parl).last_name.isEmpty
      && substrB (extract_name_parts nome parl).first_name (extract_username url platform)
      && substrB (extract_name_parts nome parl).last_name (extract_username url platform))
      = false := by
    rw [hu]
    by_cases hf : (extract_name_parts nome parl).first_name = []
    · simp [hf]
    · simp [substrB, List.isEmpty_eq_false.mpr hf]
  have hpf : (!(extract_name_parts nome parl).parl_first.isEmpty
      && substrB (extract_name_parts nome parl).parl_first (extract_username url platform))
      = false := by
    rw [hu]
    by_cases hf : (extract_name_parts nome parl).parl_first = []
    · simp [hf]
    · simp [substrB, List.isEmpty_eq_false.mpr hf]
  have hpl : (!(extract_name_parts nome parl).parl_last.isEmpty
      && substrB (extract_name_parts nome parl).parl_last (extract_username url platform))
      = false := by
    rw [hu]
    by_cases hf : (extract_name_parts nome parl).parl_last = []
    · simp [hf]
    · simp [substrB, List.isEmpty_eq_false.mpr hf]
  have hkw : officialKeywords.filter
      (fun k => substrB k (extract_username url platform) || substrB k (toLowerList url))
      = officialKeywords.filter (fun k => substrB k (toLowerList url)) := by
    apply List.filter_congr
    intro k hk
    rw [hu]
    have : substrB k [] = false := by
      have : k ≠ [] := by
        have hall : ∀ x ∈ officialKeywords, x ≠ [] := by decide
        exact hall k hk
      simp [substrB, List.isEmpty_eq_false.mpr this]
    simp [this]
  have hspnil : spatList.filter
      (fun p => suspiciousMatch p (extract_username url platform)) = [] := by
    rw [hu]; decide
  refine ⟨?_, ?_, rfl⟩
  · simp only [scoreInfoOf, ht, hb, hpf, hpl, hkw, hspnil, List.length_nil, Nat.cast_zero,
      Bool.false_eq_true, if_false]
    ring
  · simp only [scoreInfoOf, ht, hb, hpf, hpl, hkw, hspnil, Bool.false_eq_true, if_false,
      List.map_nil, List.nil_append, List.append_nil]

/-- Witness for C6's amended statement at a keyword-bearing chamber URL. -/
theorem C6_unparseable_amended_witness :
    (scoreInfoOf urlNoUser (extract_name_parts (chars "Maria Souza") (chars "Maria Souza"))
      (chars "twitter")).score
      = 2 * ((officialKeywords.filter
          (fun k => substrB k (toLowerList urlNoUser))).length : Int) :=
  (C6_unparseable_amended (chars "Maria Souza") (chars "Maria Souza") urlNoUser
    (chars "twitter") (by decide)).1

theorem isPrefixB_length {t s : List Char} (h : isPrefixB t s = true) : t.length ≤ s.length := by
  induction t generalizing s with
  | nil => simp
  | cons a as ih =>
    cases s with
    | nil => simp [isPrefixB] at h
    | cons b bs =>
      simp only [isPrefixB, Bool.and_eq_true] at h
      simpa using ih h.2

theorem titleList_pos : ∀ t ∈ titleList, 0 < t.length := by decide

theorem titleMatchAt_spec {s t : List Char} (h : titleMatchAt s = some t) :
    t ∈ titleList ∧ isPrefixB t s = true := by
  refine ⟨List.mem_of_find?_eq_some h, ?_⟩
  have hp := List.find?_some h
  simp only [Bool.and_eq_true] at hp
  exact hp.1

theorem afterTitle_fst_sublist (t s : List Char) : List.Sublist (afterTitle t s).1 s := by
  have hdrop : List.Sublist (s.drop t.length) s := List.drop_sublist t.length s
  unfold afterTitle
  split
  · exact List.nil_sublist s
  · next c r1 heq =>
    have hcr : List.Sublist (c :: r1) s := heq ▸ hdrop
    split
    · exact ((List.dropWhile_sublist _).trans (List.sublist_cons_self c r1)).trans hcr
    · split
      · exact (List.dropWhile_sublist _).trans hcr
      · exact hcr

theorem afterTitle_fst_length {s t : List Char} (h : titleMatchAt s = some t) :
    (afterTitle t s).1.length < s.length := by
  obtain ⟨hmem, hpre⟩ := titleMatchAt_spec h
  have htl : 0 < t.length := titleList_pos t hmem
  have hts : t.length ≤ s.length := isPrefixB_length hpre
  unfold afterTitle
  split
  · next heq => simp only [List.length_nil]; omega
  · next c r1 heq =>
    have hlen : (c :: r1).length = (s.drop t.length).length := by rw [heq]
    rw [List.length_drop, List.length_cons] at hlen
    have h1 : (r1.dropWhile isSpacePy).length ≤ r1.length :=
      (List.dropWhile_sublist _).length_le
    have h2 : ((c :: r1).dropWhile isSpacePy).length ≤ (c :: r1).length :=
      (List.dropWhile_sublist _).length_le
    rw [List.length_cons] at h2
    split
    · simp only []; omega
    · split
      · simp only []; omega
      · simp only [List.length_cons]; omega

theorem subTitlesF_congr : ∀ (f1 f2 : Nat) (pw : Bool) (s : List Char),
    s.length ≤ f1 → s.length ≤ f2 → subTitlesF f1 pw s = subTitlesF f2 pw s := by
  intro f1
  induction f1 with
  | zero =>
    intro f2 pw s h1 _
    have hs : s = [] := List.eq_nil_of_length_eq_zero (Nat.le_zero.mp h1)
    subst hs
    cases f2 <;> rfl
  | succ f ih =>
    intro f2 pw s h1 h2
    cases s with
    | nil => cases f2 <;> rfl
    | cons c cs =>
      cases f2 with
      | zero => simp at h2
      | succ f2a =>
        simp only [List.length_cons] at h1 h2
        cases pw with
        | true =>
          show c :: subTitlesF f (isWordChar c) cs = c :: subTitlesF f2a (isWordChar c) cs
          rw [ih f2a (isWordChar c) cs (by omega) (by omega)]
        | false =>
          cases hm : titleMatchAt (c :: cs) with
          | none =>
            show (match titleMatchAt (c :: cs) with
              | some t =>
                subTitlesF f (afterTitle t (c :: cs)).2 (afterTitle t (c :: cs)).1
              | none => c :: subTitlesF f (isWordChar c) cs) =
              (match titleMatchAt (c :: cs) with
              | some t =>
                subTitlesF f2a (afterTitle t (c :: cs)).2 (afterTitle t (c :: cs)).1
              | none => c :: subTitlesF f2a (isWordChar c) cs)
            rw [hm]
            rw [ih f2a (isWordChar c) cs (by omega) (by omega)]
          | some t =>
            show (match titleMatchAt (c :: cs) with
              | some t =>
                subTitlesF f (afterTitle t (c :: cs)).2 (afterTitle t (c :: cs)).1
              | none => c :: subTitlesF f (isWordChar c) cs) =
              (match titleMatchAt (c :: cs) with
              | some t =>
                subTitlesF f2a (afterTitle t (c :: cs)).2 (afterTitle t (c :: cs)).1
              | none => c :: subTitlesF f2a (isWordChar c) cs)
            rw [hm]
            have hlt : (afterTitle t (c :: cs)).1.length < (c :: cs).length :=
              afterTitle_fst_length hm
            simp only [List.length_cons] at hlt
            exact ih f2a (afterTitle t (c :: cs)).2 (afterTitle t (c :: cs)).1
              (by omega) (by omega)

theorem subTitlesF_eq (f : Nat) (pw : Bool) (s : List Char) (h : s.length ≤ f) :
    subTitlesF f pw s = subTitles pw s :=
  subTitlesF_congr f s.length pw s h (Nat.le_refl _)

theorem titleStep : ∀ t ∈ titleList, ∀ rest : List Char,
    subTitles false (t ++ ' ' :: rest) = subTitles false (rest.dropWhile isSpacePy) := by
  have hle : ∀ (rest : List Char) (k : Nat),
      (rest.dropWhile isSpacePy).length ≤ rest.length + k :=
    fun rest k => le_trans (List.dropWhile_sublist _).length_le (Nat.le_add_right _ _)
  intro t ht rest
  have ht2 : t ∈ [chars "dr", chars "dra", chars "prof", chars "profª", chars "professor",
      chars "professora", chars "sr", chars "sra", chars "deputado", chars "deputada"] := ht
  fin_cases ht2
  · exact (show subTitles false (chars "dr" ++ ' ' :: rest)
        = subTitlesF (rest.length + 2) false (rest.dropWhile isSpacePy) from rfl).trans
      (subTitlesF_eq _ _ _ (hle rest 2))
  · exact (show subTitles false (chars "dra" ++ ' ' :: rest)
        = subTitlesF (rest.length + 3) false (rest.dropWhile isSpacePy) from rfl).trans
      (subTitlesF_eq _ _ _ (hle rest 3))
  · exact (show subTitles false (chars "prof" ++ ' ' :: rest)
        = subTitlesF (rest.length + 4) false (rest.dropWhile isSpacePy) from rfl).trans
      (subTitlesF_eq _ _ _ (hle rest 4))
  · exact (show subTitles false (chars "profª" ++ ' ' :: rest)
        = subTitlesF (rest.length + 5) false (rest.dropWhile isSpacePy) from rfl).trans
      (subTitlesF_eq _ _ _ (hle rest 5))
  · exact (show subTitles false (chars "professor" ++ ' ' :: rest)
        = subTitlesF (rest.length + 9) false (rest.dropWhile isSpacePy) from rfl).trans
      (subTitlesF_eq _ _ _ (hle rest 9))
  · exact (show subTitles false (chars "professora" ++ ' ' :: rest)
        = subTitlesF (rest.length + 10) false (rest.dropWhile isSpacePy) from rfl).trans
      (subTitlesF_eq _ _ _ (hle rest 10))
  · exact (show subTitles false (chars "sr" ++ ' ' :: rest)
        = subTitlesF (rest.length + 2) false (rest.dropWhile isSpacePy) from rfl).trans
      (subTitlesF_eq _ _ _ (hle rest 2))
  · exact (show subTitles false (chars "sra" ++ ' ' :: rest)
        = subTitlesF (rest.length + 3) false (rest.dropWhile isSpacePy) from rfl).trans
      (subTitlesF_eq _ _ _ (hle rest 3))
  · exact (show subTitles false (chars "deputado" ++ ' ' :: rest)
        = subTitlesF (rest.length + 8) false (rest.dropWhile isSpacePy) from rfl).trans
      (subTitlesF_eq _ _ _ (hle rest 8))
  · exact (show subTitles false (chars "deputada" ++ ' ' :: rest)
        = subTitlesF (rest.length + 8) false (rest.dropWhile isSpacePy) from rfl).trans
      (subTitlesF_eq _ _ _ (hle rest 8))

theorem subTitles_space {c : Char} (cs : List Char) (h : isSpacePy c = true) :
    subTitles false (c :: cs) = c :: subTitles false cs := by
  by_cases h1 : c = ' '
  · subst h1; rfl
  by_cases h2 : c = '\t'
  · subst h2; rfl
  by_cases h3 : c = '\n'
  · subst h3; rfl
  by_cases h4 : c = '\x0d'
  · subst h4; rfl
  by_cases h5 : c = '\x0b'
  · subst h5; rfl
  by_cases h6 : c = '\x0c'
  · subst h6; rfl
  exact absurd h (by simp [isSpacePy, h1, h2, h3, h4, h5, h6])

theorem subTitles_space_decomp : ∀ s : List Char,
    subTitles false s = s.takeWhile isSpacePy ++ subTitles false (s.dropWhile isSpacePy) := by
  intro s
  induction s with
  | nil => rfl
  | cons c cs ih =>
    by_cases h : isSpacePy c = true
    · rw [List.takeWhile_cons_of_pos h, List.dropWhile_cons_of_pos h,
        subTitles_space cs h, ih, List.cons_append]
    · rw [List.takeWhile_cons_of_neg (by simp [h]), List.dropWhile_cons_of_neg (by simp [h]),
        List.nil_append]

theorem dropWhile_space_append {sp : List Char} (hsp : ∀ x ∈ sp, isSpacePy x = true)
    (l : List Char) : (sp ++ l).dropWhile isSpacePy = l.dropWhile isSpacePy := by
  induction sp with
  | nil => rfl
  | cons a sp2 ih =>
    rw [List.cons_append, List.dropWhile_cons_of_pos (hsp a (List.mem_cons_self a sp2))]
    exact ih (fun x hx => hsp x (List.mem_cons_of_mem a hx))

theorem pyStrip_space_drop {sp : List Char} (hsp : ∀ x ∈ sp, isSpacePy x = true)
    (l : List Char) : pyStrip (sp ++ l) = pyStrip l := by
  unfold pyStrip
  rw [dropWhile_space_append hsp]

theorem normalize_title_drop (t : List Char) (ht : t ∈ titleList) (name : List Char) :
    normalize_name (t ++ ' ' :: name) = normalize_name name := by
  have hmapT : List.map stripLower t = t := by
    have hall : ∀ x ∈ titleList, List.map stripLower x = x := by decide
    exact hall t ht
  unfold normalize_name
  rw [List.map_append, hmapT, List.map_cons, show stripLower ' ' = ' ' from rfl,
    titleStep t ht (List.map stripLower name),
    subTitles_space_decomp (List.map stripLower name),
    pyStrip_space_drop (fun x hx => List.mem_takeWhile_imp hx)]

theorem mem_subTitlesF : ∀ (f : Nat) (pw : Bool) (s : List Char) (c : Char),
    c ∈ subTitlesF f pw s → c ∈ s := by
  intro f
  induction f with
  | zero => intro pw s c h; exact h
  | succ f ih =>
    intro pw s c h
    cases s with
    | nil => simp [subTitlesF] at h
    | cons a as =>
      cases pw with
      | true =>
        have h2 : c ∈ a :: subTitlesF f (isWordChar a) as := h
        rcases List.mem_cons.mp h2 with rfl | h3
        · exact List.mem_cons_self _ _
        · exact List.mem_cons_of_mem _ (ih _ _ _ h3)
      | false =>
        have h2 : c ∈ (match titleMatchAt (a :: as) with
          | some t => subTitlesF f (afterTitle t (a :: as)).2 (afterTitle t (a :: as)).1
          | none => a :: subTitlesF f (isWordChar a) as) := h
        cases hm : titleMatchAt (a :: as) with
        | none =>
          rw [hm] at h2
          rcases List.mem_cons.mp h2 with rfl | h3
          · exact List.mem_cons_self _ _
          · exact List.mem_cons_of_mem _ (ih _ _ _ h3)
        | some t =>
          rw [hm] at h2
          exact (afterTitle_fst_sublist t (a :: as)).subset (ih _ _ _ h2)

theorem mem_pyStrip {s : List Char} {c : Char} (h : c ∈ pyStrip s) : c ∈ s := by
  unfold pyStrip at h
  rw [List.mem_reverse] at h
  have h1 := (List.dropWhile_sublist _).subset h
  rw [List.mem_reverse] at h1
  exact (List.dropWhile_sublist _).subset h1

theorem normalize_provenance (name : List Char) (c : Char) (h : c ∈ normalize_name name) :
    ∃ c0, c0 ∈ name ∧ c = stripLower c0 := by
  unfold normalize_name at h
  have h1 : c ∈ subTitles false (List.map stripLower name) := mem_pyStrip h
  have h2 : c ∈ List.map stripLower name :=
    mem_subTitlesF (List.map stripLower name).length false _ _ h1
  obtain ⟨c0, hc0, rfl⟩ := List.mem_map.mp h2
  exact ⟨c0, hc0, rfl⟩

/-- Counterexample to C8: the honorific list of `_normalize_name` does not
contain "senadora", so "Senadora Maria Silva" keeps its title, while the
deputy title is removed. -/
theorem C8_senadora_cex :
    normalize_name (chars "Senadora Maria Silva") = chars "senadora maria silva"
  ∧ normalize_name (chars "Senadora Maria Silva") ≠ chars "maria silva"
  ∧ normalize_name (chars "Deputado Maria Silva") = chars "maria silva" := by
  decide

/-- C8 (amended): normalization lower-cases and strips diacritics character
by character (every output character is the `stripLower` image of an input
character), removes exactly the honorific prefixes of the source's list
("dr", "dra", "prof", "profª", "professor", "professora", "sr", "sra",
"deputado", "deputada" — not "senadora"), and `_extract_name_parts` keeps
only tokens longer than 2 characters in both token lists. -/
theorem C8_normalize_amended :
    (∀ t ∈ titleList, ∀ name : List Char,
      normalize_name (t ++ ' ' :: name) = normalize_name name)
  ∧ (∀ nome parl : List Char,
      (∀ t ∈ (extract_name_parts nome parl).full_parts, 2 < t.length)
    ∧ (∀ t ∈ (extract_name_parts nome parl).parl_parts, 2 < t.length))
  ∧ (∀ name : List Char, ∀ c ∈ normalize_name name, ∃ c0, c0 ∈ name ∧ c = stripLower c0)
  ∧ normalize_name (chars "MÁrio ÇÃo") = chars "mario cao" := by
  refine ⟨fun t ht name => normalize_title_drop t ht name,
    fun nome parl => ⟨?_, ?_⟩,
    fun name c h => normalize_provenance name c h, by decide⟩
  · intro t htm
    exact of_decide_eq_true (List.mem_filter.mp htm).2
  · intro t htm
    exact of_decide_eq_true (List.mem_filter.mp htm).2

/-- Witness for C8's amended statement: the "dr" prefix is removed. -/
theorem C8_normalize_amended_witness :
    normalize_name (chars "dr" ++ ' ' :: chars "joao silva")
      = normalize_name (chars "joao silva") :=
  C8_normalize_amended.1 (chars "dr") (by decide) (chars "joao silva")

end Blindagem
